import Mathlib

/-!
Verification development for the MonteCarloGraphSearch repository
(`src/MCGSAgent.py`, `src/MCTSAgent.py`).

The two agents are embedded shallowly:

* Pure Python functions become Lean functions; the mutable object graph of
  `Node` objects is represented as an arena (a list of `Node` records keyed
  by their identity), and in-place mutation becomes an explicit state pass.
* Machine floats of the UCT formula are modelled over the reals; all search
  bookkeeping (rewards, statistics) is modelled over `ℚ`.
* Python code that can raise (`assert`, attribute access on `None`,
  division by zero, `math.log` domain errors) is modelled with `Option`,
  `none` standing for the raised exception.
* Unbounded `while` loops become fuel recursion.
* The seeded NumPy PRNG is abstracted as a stream `Nat → Nat` together with
  a cursor held in the agent state; `random.choice` picks the element
  indexed by the next stream value modulo the list length.

The low-level graph store (`testGraph` for the graph agent, `MCTSGraph` for
the tree agent) is not part of `src/`; its operations are modelled from the
spec (section 4.1) and are marked `Modelled from the spec:` below.
-/

/-- A state fingerprint (`get_observation` / `print_board` result), abstracted
as a natural number. -/
abbrev Obs := Nat

/-- An environment action, abstracted as a natural number. -/
abbrev Act := Nat

/-- A player identifier. -/
abbrev Pid := Nat

/-- The external environment / forward-model collaborator (spec section 6).
`GS` is the abstract game-state type.  `advance_gamestate` is modelled as a
pure function returning the successor state (the Python API mutates in
place); `evaluate_gamestate` models the heuristic collaborator. -/
structure Env (GS : Type) where
  get_observation : GS → Obs
  generate_actions : GS → Pid → List Act
  advance_gamestate : GS → Act → GS
  is_game_over : GS → Bool
  evaluate_gamestate : GS → ℚ
  create_end_action : Pid → Act → Act
  validate : Act → GS → Bool
  set_current_tbs_player : GS → Pid → GS
  player_id : Pid

/-- Embedding of `advance_gamestate` applied to an optional action: the `none` case
corresponds to the dead branch of `plan` that would pass `None` to the
forward model; it is modelled as leaving the state unchanged. -/
def Env.advance_opt {GS : Type} (env : Env GS) (e : GS) : Option Act → GS
  | some a => env.advance_gamestate e a
  | none => e

/-- The value returned to the host runtime by `compute_action`: either a
single-action assignment or the explicit end-turn no-op assignment. -/
inductive ActionAssignment where
  | single (a : Act)
  | end_turn (pid : Pid)
deriving DecidableEq, Repr

/-- One draw of `numpy.random.RandomState.choice` from a list, with the PRNG
abstracted as the stream `rng` read at cursor `k`. -/
def random_choice (rng : Nat → Nat) (k : Nat) (xs : List Act) : Act :=
  xs.getD (rng k % xs.length) 0

/-- A batch draw `random.choice(xs, n)` reading `n` consecutive stream values. -/
def random_choice_list (rng : Nat → Nat) (k : Nat) (xs : List Act) (n : Nat) : List Act :=
  (List.range n).map fun i => random_choice rng (k + i) xs

/-- Embedding of `np.mean` over a list of rationals (the empty-list NaN case is modelled
as `0`; it is never reached with the initialised rollout counts). -/
def rat_mean (l : List ℚ) : ℚ := l.sum / l.length

namespace MCGS

/-- The `Node` record of `src/MCGSAgent.py` (lines 522-538).  `parent` holds
the fingerprint of the live parent; `total_value` is initialised from the
creation reward by `__init__`. -/
structure Node where
  id : Obs
  parent : Option Obs
  action : Option Act
  total_value : ℚ
  visits : Nat
  is_leaf : Bool
  chosen : Bool
  unreachable : Bool
deriving DecidableEq, Repr

/-- Embedding of `Node.__init__(id, parent, is_leaf, action, reward, visits)`:
`total_value` starts at `reward`, `chosen` and `unreachable` start `False`. -/
def Node.init (id : Obs) (parent : Option Obs) (is_leaf : Bool) (action : Option Act)
    (reward : ℚ) (visits : Nat) : Node :=
  { id := id, parent := parent, action := action, total_value := reward,
    visits := visits, is_leaf := is_leaf, chosen := false, unreachable := false }

/-- Embedding of `Node.value` (lines 547-551): mean value, guarded against zero visits. -/
def Node.value (n : Node) : ℚ :=
  if n.visits = 0 then 0 else n.total_value / n.visits

/-- The `Edge` record of `src/MCGSAgent.py` (lines 583-591), with node
references stored as fingerprints. -/
structure Edge where
  id : Nat
  node_from : Obs
  node_to : Obs
  action : Option Act
  reward : ℚ
deriving DecidableEq, Repr

/-- Modelled from the spec: the search graph store (`testGraph`, not under
`src/`), holding the node arena, the recorded edges, the frontier set and
the designated root (spec section 4.1). -/
structure Graph where
  nodes : List Node
  edges : List Edge
  frontier : List Obs
  root : Option Obs
deriving DecidableEq, Repr

/-- Modelled from the spec: `has_node(fp)` membership query of the store. -/
def Graph.has_node (g : Graph) (o : Obs) : Bool :=
  g.nodes.any fun n => n.id == o

/-- Modelled from the spec: `get_node(fp)` lookup of the store. -/
def Graph.get_node_info (g : Graph) (o : Obs) : Option Node :=
  g.nodes.find? fun n => n.id == o

/-- Modelled from the spec: `add_node(n)` of the store appends to the arena. -/
def Graph.add_node (g : Graph) (n : Node) : Graph :=
  { g with nodes := g.nodes ++ [n] }

/-- Modelled from the spec: in-place mutation of the node with identity `o`
(field updates on a live Python object), as an arena rewrite. -/
def Graph.update_node (g : Graph) (o : Obs) (f : Node → Node) : Graph :=
  { g with nodes := g.nodes.map fun n => if n.id = o then f n else n }

/-- Modelled from the spec: edge equivalence for idempotent `add_edge` (spec
section 3: at most one edge per (parent, action) pair). -/
def Graph.has_edge (g : Graph) (e : Edge) : Bool :=
  g.edges.any fun e' => e'.node_from == e.node_from && e'.action == e.action

/-- Modelled from the spec: `has_edge(from, to)` between two nodes. -/
def Graph.has_edge_by_nodes (g : Graph) (a b : Node) : Bool :=
  g.edges.any fun e => e.node_from == a.id && e.node_to == b.id

/-- Modelled from the spec: record an edge in the store. -/
def Graph.add_edge (g : Graph) (e : Edge) : Graph :=
  { g with edges := g.edges ++ [e] }

/-- Modelled from the spec: `get_edge_info(from, to)` lookup. -/
def Graph.get_edge_info (g : Graph) (a b : Obs) : Option Edge :=
  g.edges.find? fun e => e.node_from == a && e.node_to == b

/-- Modelled from the spec: add a node's fingerprint to the frontier set. -/
def Graph.add_to_frontier (g : Graph) (o : Obs) : Graph :=
  { g with frontier := g.frontier ++ [o] }

/-- Modelled from the spec: remove a fingerprint from the frontier set. -/
def Graph.remove_from_frontier (g : Graph) (o : Obs) : Graph :=
  { g with frontier := g.frontier.filter fun x => x ≠ o }

/-- Modelled from the spec: `select_frontier_node()` nominates some frontier
node or `None`; the (unspecified) nomination policy of the missing store is
modelled as taking the first frontier entry. -/
def Graph.select_frontier_node (g : Graph) : Option Node :=
  match g.frontier with
  | [] => none
  | o :: _ => g.get_node_info o

/-- Modelled from the spec: `set_root(n)` records the designated root. -/
def Graph.set_root_node (g : Graph) (o : Obs) : Graph :=
  { g with root := some o }

/-- The mutable fields of the `MCGSAgent` object that the planning core
reads and writes (counters, budget configuration, PRNG cursor), together
with the graph store and the current root fingerprint. -/
structure AState where
  graph : Graph
  root_id : Obs
  node_counter : Nat
  edge_counter : Nat
  num_rollouts : Nat
  rollout_depth : Nat
  num_simulations : Nat
  forward_model_calls : Nat
  max_forward_model_calls : Nat
  num_iterations : Nat
  max_iterations : Nat
  elapsed_ms : Nat
  max_time_ms : Nat
  budget_type : String
  rng : Nat → Nat
  rng_idx : Nat

/-- One `self.forward_model_calls += 1` step. -/
def AState.bump_fm (st : AState) : AState :=
  { st with forward_model_calls := st.forward_model_calls + 1 }

/-- Embedding of `MCGSAgent.is_budget_over` (lines 121-129).  The wall clock of the
`MAX_TIME_MS` mode is abstracted as the state field `elapsed_ms`. -/
def is_budget_over (st : AState) : Bool :=
  if st.budget_type = "MAX_FM_CALLS" then
    st.max_forward_model_calls ≤ st.forward_model_calls
  else if st.budget_type = "MAX_ITERATIONS" then
    st.max_iterations ≤ st.num_iterations
  else if st.budget_type = "MAX_TIME_MS" then
    st.max_time_ms ≤ st.elapsed_ms
  else
    false

/-- Embedding of `MCGSAgent.reset_budget` (lines 131-134); the fresh `Timer()` is
modelled as resetting the abstract clock. -/
def reset_budget (st : AState) : AState :=
  { st with forward_model_calls := 0, num_iterations := 0, elapsed_ms := 0 }

/-- Embedding of `MCGSAgent.add_node` (lines 493-502): add to the store and the frontier
only when the fingerprint is not yet present. -/
def add_node (st : AState) (n : Node) : AState :=
  if st.graph.has_node n.id then st
  else
    { st with
      graph := (st.graph.add_node n).add_to_frontier n.id,
      node_counter := st.node_counter + 1 }

/-- Embedding of `MCGSAgent.add_edge` (lines 505-520): idempotently record the edge, and
re-link a previously unreachable child through this parent. -/
def add_edge (st : AState) (parent child : Node) (action : Option Act) (reward : ℚ) :
    Edge × AState :=
  let e : Edge := { id := st.edge_counter, node_from := parent.id, node_to := child.id,
                    action := action, reward := reward }
  let st :=
    if st.graph.has_edge e then st
    else { st with graph := st.graph.add_edge e, edge_counter := st.edge_counter + 1 }
  let st :=
    if child.unreachable && child.id != st.root_id then
      { st with
        graph := st.graph.update_node child.id fun m =>
          { m with parent := some parent.id, action := action, unreachable := false } }
    else st
  (e, st)

/-- Embedding of `MCGSAgent.add_new_observation` (lines 416-434): create a `Node` only
when the fingerprint is absent, otherwise fetch the existing one; always
record the edge.  The `none` result models the (unreachable) `assert`
failure when a present fingerprint fails to resolve. -/
def add_new_observation (st : AState) (current_observation : Obs) (parent_node : Node)
    (action : Option Act) (reward : ℚ) : Option Node × ℚ × AState :=
  if st.graph.has_node current_observation then
    match st.graph.get_node_info current_observation with
    | some child =>
        let (_, st) := add_edge st parent_node child action reward
        (some child, reward, st)
    | none => (none, reward, st)
  else
    let child := Node.init current_observation (some parent_node.id) true action reward 0
    let st := add_node st child
    let (_, st) := add_edge st parent_node child action reward
    (some child, reward, st)

/-- The node-creating operations of the graph agent: `add_new_observation`
(invoked by both expansion and path replay) and the guarded `add_node`. -/
inductive GOp where
  | new_obs (o : Obs) (parent : Node) (a : Option Act) (r : ℚ)
  | add (n : Node)

/-- Apply a sequence of node-creating operations to the agent state. -/
def apply_g_ops (ops : List GOp) (st : AState) : AState :=
  ops.foldl
    (fun st op =>
      match op with
      | GOp.new_obs o p a r => (add_new_observation st o p a r).2.2
      | GOp.add n => add_node st n)
    st

/-- The deduplication invariant: pairwise distinct fingerprints in the node
arena, i.e. at most one live `Node` per fingerprint. -/
def nodes_dedup (g : Graph) : Prop :=
  (g.nodes.map Node.id).Nodup

instance (g : Graph) : Decidable (nodes_dedup g) := by
  unfold nodes_dedup; infer_instance

/-- Modelled from the spec: `get_path(a, b)` over the live-parent back
pointers (spec section 4.1) — the fingerprints and actions along the chain
from ancestor `a` down to `b`, found by walking `b`'s parents with fuel. -/
def Graph.path_up (g : Graph) : Nat → Obs → Obs → Option (List Obs × List (Option Act))
  | 0, _, _ => none
  | fuel + 1, a, b =>
    if a = b then some ([a], [])
    else
      match g.get_node_info b with
      | none => none
      | some n =>
        match n.parent with
        | none => none
        | some p =>
          match g.path_up fuel a p with
          | none => none
          | some (obs_list, act_list) => some (obs_list ++ [b], act_list ++ [n.action])

/-- Fuel that dominates the length of any simple parent chain in the arena. -/
def Graph.fuel (g : Graph) : Nat := g.nodes.length + 1

/-- Modelled from the spec: `has_path(a, b)` over the live-parent chain. -/
def Graph.has_path (g : Graph) (a b : Obs) : Bool :=
  (g.path_up g.fuel a b).isSome

/-- Modelled from the spec: `reroute_path(new_root, old_node)` rewrites the
live-parent pointers along the recorded path (the `Node.reroute` walk of the
source, lines 564-574, applied by the store). -/
def Graph.apply_chain (g : Graph) : List Obs → List (Option Act) → Graph
  | o1 :: o2 :: rest, a :: acts =>
    (g.update_node o2 fun m => { m with parent := some o1, action := a }).apply_chain
      (o2 :: rest) acts
  | _, _ => g

/-- Modelled from the spec: `reroute_path` entry point. -/
def Graph.reroute_path (g : Graph) (a b : Obs) : Graph :=
  match g.path_up g.fuel a b with
  | none => g
  | some (obs_list, act_list) => g.apply_chain obs_list act_list

/-- Modelled from the spec: the bulk maintenance pass `reroute_all` of the
missing store.  Rerouting only rewrites live-parent pointers (spec
section 4.6); since path queries here already walk the live-parent tree
itself (spec section 4.1), the pass has no chain to change and is modelled
as the identity on the store.  No claim proved below depends on it. -/
def Graph.reroute_all (g : Graph) : Graph := g

/-- Modelled from the spec: `get_best_node(only_reachable)` — the
best-scoring node by mean value among the (reachable) nodes, or `None` if
no candidate exists. -/
def Graph.get_best_node (g : Graph) (only_reachable : Bool) : Option Node :=
  let cand := if only_reachable then g.nodes.filter fun n => !n.unreachable else g.nodes
  cand.foldl
    (fun best n =>
      match best with
      | none => some n
      | some b => if n.value > b.value then some n else some b)
    none

/-- Modelled from the spec: `get_closest_done_node(only_reachable)` — the
nearest terminal node.  The `Node` record of the source has no terminal
flag (its `done` field is commented out), so no stored node is identifiable
as terminal and the query finds none. -/
def Graph.get_closest_done_node (_g : Graph) (_only_reachable : Bool) : Option Node :=
  none

/-- The statistics update `node.visits += 1; node.total_value += reward`
applied at every node visited by `back_propagation` (lines 376-377). -/
def stat_update (reward : ℚ) (m : Node) : Node :=
  { m with visits := m.visits + 1, total_value := m.total_value + reward }

/-- Embedding of `MCGSAgent.back_propagation` (lines 373-378): walk the live-parent
chain, incrementing `visits` and adding the reward, until the node
reference becomes `None`; fuel bounds the walk (the Python loop would not
terminate on a cyclic chain). -/
def back_propagation (g : Graph) : Nat → Option Obs → ℚ → Graph
  | 0, _, _ => g
  | _ + 1, none, _ => g
  | fuel + 1, some i, reward =>
    match g.get_node_info i with
    | none => g
    | some n => back_propagation (g.update_node i (stat_update reward)) fuel n.parent reward

/-- One entry of the rollout trace: `(previous_observation, observation,
action, reward)` as appended at line 366. -/
abbrev TraceEntry := Obs × Obs × Act × ℚ

/-- The step loop of `MCGSAgent.rollout` (lines 354-370): for each action of
the pre-sampled list, create the end action, advance with it, record the
heuristic reward.  There is no terminal or budget check in this loop. -/
def rollout_loop {GS : Type} (env : Env GS) :
    List Act → Obs → ℚ → List TraceEntry → GS → AState → ℚ × List TraceEntry × AState
  | [], _, cum_reward, path, _, st => (cum_reward, path, st)
  | a :: rest, previous_observation, cum_reward, path, e, st =>
    let end_action := env.create_end_action env.player_id a
    let e := env.advance_gamestate e end_action
    let observation := env.get_observation e
    let st := st.bump_fm
    let reward := env.evaluate_gamestate e
    rollout_loop env rest observation (cum_reward + reward)
      (path ++ [(previous_observation, observation, a, reward)]) e st

/-- Embedding of `MCGSAgent.rollout` (lines 343-371): clone the environment, advance once
with the action leading to the node, then run the step loop over the
pre-sampled action list. -/
def rollout {GS : Type} (env : Env GS) (action_to_node : Option Act) (e : GS)
    (action_list : List Act) (st : AState) : ℚ × List TraceEntry × AState :=
  let rollout_env := env.advance_opt e action_to_node
  let st := st.bump_fm
  let previous_observation := env.get_observation rollout_env
  rollout_loop env action_list previous_observation 0 [] rollout_env st

/-- The rollout repetition of `MCGSAgent.sequential_simulation` (lines
320-339), returning the per-rollout cumulative rewards and traces. -/
def seq_sim_aux {GS : Type} (env : Env GS) (action_to_node : Option Act) (e : GS) :
    Nat → AState → List ℚ × List (List TraceEntry) × AState
  | 0, st => ([], [], st)
  | k + 1, st =>
    let possible_actions := env.generate_actions e env.player_id
    let action_list := random_choice_list st.rng st.rng_idx possible_actions st.rollout_depth
    let st := { st with rng_idx := st.rng_idx + st.rollout_depth }
    let (average_reward, path, st) := rollout env action_to_node e action_list st
    let (rewards, paths, st) := seq_sim_aux env action_to_node e k st
    (average_reward :: rewards, path :: paths, st)

/-- Embedding of `MCGSAgent.sequential_simulation` (lines 316-340): `num_rollouts`
rollouts from the cloned environment; result is `np.mean` of the cumulative
rewards. -/
def sequential_simulation {GS : Type} (env : Env GS) (action_to_node : Option Act)
    (e : GS) (st : AState) : ℚ × List (List TraceEntry) × AState :=
  let (rewards, paths, st) := seq_sim_aux env action_to_node e st.num_rollouts st
  (rat_mean rewards, paths, st)

/-- Outcome of the inner `for` loop of `go_to_node` (lines 231-256). -/
inductive GoStep where
  | fell_through
  | diverged (n : Option Node)
  | reached
deriving Repr

/-- The inner `for idx, action in enumerate(actions)` loop of
`MCGSAgent.go_to_node` (lines 231-256): replay each recorded action on the
live environment, discovering nodes and edges incidentally, and break on
divergence from the recorded path or on reaching the destination. -/
def go_steps {GS : Type} (env : Env GS) (destination_node : Node) (obs_list : List Obs) :
    List (Option Act) → Nat → GS → AState → GoStep × GS × AState
  | [], _, e, st => (GoStep.fell_through, e, st)
  | a :: rest, idx, e, st =>
    let previous_observation := env.get_observation e
    let parent_node := st.graph.get_node_info previous_observation
    let e := env.advance_opt e a
    let st := st.bump_fm
    let current_observation := env.get_observation e
    let reward := env.evaluate_gamestate e
    let st :=
      if !st.graph.has_node current_observation then
        match parent_node with
        | some p => (add_new_observation st current_observation p a reward).2.2
        | none => st
      else st
    let st :=
      match parent_node, st.graph.get_node_info current_observation with
      | some p, some c =>
        if !st.graph.has_edge_by_nodes p c then (add_edge st p c a reward).2 else st
      | _, _ => st
    if obs_list.getD (idx + 1) 0 ≠ current_observation then
      (GoStep.diverged (st.graph.get_node_info current_observation), e, st)
    else if destination_node.id = env.get_observation e then
      (GoStep.reached, e, st)
    else
      go_steps env destination_node obs_list rest (idx + 1) e st

/-- The outer `while` loop of `MCGSAgent.go_to_node` (lines 227-256), with
fuel for the unbounded replay. -/
def go_to_node_loop {GS : Type} (env : Env GS) (destination_node : Node) :
    Nat → Node → GS → AState → GS × AState
  | 0, _, e, st => (e, st)
  | fuel + 1, node, e, st =>
    match st.graph.path_up st.graph.fuel node.id destination_node.id with
    | none => (e, st)
    | some (obs_list, act_list) =>
      match go_steps env destination_node obs_list act_list 0 e st with
      | (GoStep.reached, e, st) => (e, st)
      | (GoStep.fell_through, e, st) => go_to_node_loop env destination_node fuel node e st
      | (GoStep.diverged (some n), e, st) => go_to_node_loop env destination_node fuel n e st
      | (GoStep.diverged none, e, st) => (e, st)

/-- Embedding of `MCGSAgent.go_to_node` (lines 219-258): replay the recorded path to the
destination and return the node for the observation actually reached. -/
def go_to_node {GS : Type} (env : Env GS) (destination_node : Node) (e : GS) (st : AState) :
    Option Node × GS × AState :=
  let observation := env.get_observation e
  match st.graph.get_node_info observation with
  | none => (st.graph.get_node_info (env.get_observation e), e, st)
  | some node =>
    let (e, st) := go_to_node_loop env destination_node st.graph.fuel node e st
    (st.graph.get_node_info (env.get_observation e), e, st)

/-- Embedding of `MCGSAgent.selection` (lines 206-217): the root while still a leaf, else
the nominated frontier node reached by path replay (the root again when no
frontier node exists). -/
def selection {GS : Type} (env : Env GS) (e : GS) (st : AState) :
    Option Node × GS × AState :=
  match st.graph.get_node_info st.root_id with
  | none => (none, e, st)
  | some root =>
    if root.is_leaf then (some root, e, st)
    else
      match st.graph.select_frontier_node with
      | none => (some root, e, st)
      | some node => go_to_node env node e st

/-- Embedding of `MCGSAgent.expansion` (lines 260-294): unmark the leaf, enumerate legal
actions, advance a clone per action, and create-or-fetch each child through
`add_new_observation`. -/
def expansion {GS : Type} (env : Env GS) (node : Node) (e : GS) (st : AState) :
    List Node × List (Option Act) × AState :=
  let st :=
    if node.is_leaf then
      { st with
        graph := (st.graph.update_node node.id fun m =>
          { m with is_leaf := false }).remove_from_frontier node.id }
    else st
  let actions := env.generate_actions e env.player_id
  actions.foldl
    (fun acc a =>
      let (new_nodes, actions_to_new_nodes, st) := acc
      let expansion_env := env.advance_gamestate e a
      let st := st.bump_fm
      let reward := env.evaluate_gamestate expansion_env
      let current_observation := env.get_observation expansion_env
      match add_new_observation st current_observation node (some a) reward with
      | (some child, _, st) =>
        (new_nodes ++ [child], actions_to_new_nodes ++ [some a], st)
      | (none, _, st) => (new_nodes, actions_to_new_nodes, st))
    ([], [], st)

/-- One iteration of the planning loop of `MCGSAgent.plan` (lines 173-195):
selection, expansion (re-expanding the root when selection yields nothing),
then per-child simulation and backpropagation. -/
def plan_iteration {GS : Type} (env : Env GS) (gs : GS) (st : AState) : AState :=
  let selection_env := gs
  let (node, selection_env, st) := selection env selection_env st
  let (children, actions_to_children, st) :=
    match node with
    | none =>
      ((match st.graph.get_node_info st.root_id with
        | some r => [r]
        | none => []),
       ([none] : List (Option Act)), st)
    | some node => expansion env node selection_env st
  (children.zip actions_to_children).foldl
    (fun st ca =>
      let (child_average_reward, _, st) := sequential_simulation env ca.2 selection_env st
      let st := { st with num_simulations := st.num_simulations + 1 }
      { st with
        graph := back_propagation st.graph st.graph.fuel (some ca.1.id) child_average_reward })
    st

/-- The `while not self.is_budget_over()` loop of `MCGSAgent.plan` (line
171), with fuel: the budget is consulted only at iteration boundaries. -/
def plan_loop {GS : Type} (env : Env GS) (gs : GS) : Nat → AState → AState
  | 0, st => st
  | fuel + 1, st =>
    if is_budget_over st then st
    else plan_loop env gs fuel (plan_iteration env gs st)

/-- Embedding of `MCGSAgent.set_root_node` (lines 451-468).  `none` models the Python
exceptions raised when the lookup of the new root or of the rerouted old
root's inbound edge fails. -/
def set_root_node {GS : Type} (env : Env GS) (gs : GS) (st : AState) : Option AState :=
  let old_root_id := st.root_id
  let new_root_id := env.get_observation gs
  match st.graph.get_node_info new_root_id with
  | none => none
  | some new_root =>
    let st := { st with root_id := new_root_id,
                        graph := st.graph.set_root_node new_root_id }
    if new_root.id ≠ old_root_id then
      let st := { st with graph := st.graph.update_node new_root_id fun m =>
                    { m with chosen := true, parent := none } }
      if st.graph.has_path new_root_id old_root_id then
        let st := { st with graph := st.graph.reroute_path new_root_id old_root_id }
        match st.graph.get_node_info old_root_id with
        | none => none
        | some old_root =>
          match old_root.parent with
          | none => none
          | some p =>
            match st.graph.get_edge_info p old_root_id with
            | none => none
            | some edge =>
              some { st with graph := st.graph.update_node old_root_id fun m =>
                       { m with action := edge.action } }
      else some st
    else some st

/-- The `while best_node.parent != self.root_node` climb of
`select_best_step` (lines 483-484); `none` models the attribute error hit
when evaluating `None.parent` after walking past a parentless node. -/
def climb (g : Graph) (root_id : Obs) : Nat → Node → Option Node
  | 0, _ => none
  | fuel + 1, best_node =>
    if best_node.parent = some root_id then some best_node
    else
      match best_node.parent with
      | none => none
      | some p =>
        match g.get_node_info p with
        | none => none
        | some pn => climb g root_id fuel pn

/-- Embedding of `MCGSAgent.select_best_step` (lines 470-488): find the best reachable
node (a `closest` probe first when requested), climb to the child of the
root, and return it with the action of the connecting edge; the root with
no action when no reachable node exists. -/
def select_best_step (st : AState) (node_id : Obs) (closest : Bool) :
    Option (Obs × Option Act) :=
  let best_node := if closest then st.graph.get_closest_done_node true else none
  let best_node :=
    match best_node with
    | none => st.graph.get_best_node true
    | some b => some b
  match best_node with
  | none => some (st.root_id, none)
  | some b =>
    match climb st.graph st.root_id st.graph.fuel b with
    | none => none
    | some best =>
      match st.graph.get_edge_info node_id best.id with
      | none => none
      | some edge => some (best.id, edge.action)

/-- Embedding of `MCGSAgent.plan` (lines 167-204): re-root, reroute, run the budgeted
loop, and pick the best immediate step.  `none` models a raised exception. -/
def plan {GS : Type} (env : Env GS) (fuel : Nat) (gs : GS) (st : AState) :
    Option (Option Act × AState) :=
  match set_root_node env gs st with
  | none => none
  | some st =>
    let st := { st with graph := st.graph.reroute_all }
    let st := plan_loop env gs fuel st
    match select_best_step st st.root_id false with
    | none => none
    | some (_, action) => some (action, st)

/-- Embedding of `MCGSAgent.compute_action` (lines 153-164): reset the budget, plan, and
wrap the result, falling back to the end-turn assignment when planning
yields no action. -/
def compute_action {GS : Type} (env : Env GS) (fuel : Nat) (gs : GS) (st : AState) :
    Option (ActionAssignment × AState) :=
  let st := reset_budget st
  let _actions := env.generate_actions gs env.player_id
  match plan env fuel gs st with
  | none => none
  | some (none, st) => some (ActionAssignment.end_turn env.player_id, st)
  | some (some action, st) => some (ActionAssignment.single action, st)

/-- Embedding of `Node.uct_value` of `src/MCGSAgent.py` (lines 540-545):
`value() + c * sqrt(log(parent.visits + 1) / visits)` with `c = 1/sqrt(2)`,
over the reals.  `none` models the exceptions of the Python expression: the
attribute access `None.visits` when the node has no parent, and the
`ZeroDivisionError` when `visits == 0`. -/
noncomputable def uct_value (n : Node) (parent : Option Node) : Option ℝ :=
  match parent with
  | none => none
  | some p =>
    if n.visits = 0 then none
    else
      some ((n.value : ℝ) +
        1 / Real.sqrt 2 * Real.sqrt (Real.log (p.visits + 1) / n.visits))

end MCGS

namespace MCTS

/-- The `Node` record of `src/MCTSAgent.py` (lines 234-247): nodes are keyed
by a running counter `id`, the fingerprint lives in `observation`, `value`
is the running total of backpropagated values, and `redundant` flags an
observation already present in the store. -/
structure Node where
  id : Nat
  observation : Obs
  parent : Option Nat
  value : ℚ
  visits : Nat
  is_leaf : Bool
  redundant : Bool
  chosen : Bool
  unreachable : Bool
deriving DecidableEq, Repr

/-- The `Edge` record of `src/MCTSAgent.py` (lines 259-266). -/
structure Edge where
  id : Nat
  node_from : Nat
  node_to : Nat
  action : Act
  reward : ℚ
deriving DecidableEq, Repr

/-- Modelled from the spec: the tree agent's store (`MCTSGraph`, not under
`src/`), as a node arena plus recorded edges. -/
structure Graph where
  nodes : List Node
  edges : List Edge
deriving DecidableEq, Repr

/-- Modelled from the spec: node lookup by counter identity. -/
def Graph.get_node (g : Graph) (i : Nat) : Option Node :=
  g.nodes.find? fun n => n.id == i

/-- Modelled from the spec: in-place mutation of the node with identity `i`. -/
def Graph.update_node (g : Graph) (i : Nat) (f : Node → Node) : Graph :=
  { g with nodes := g.nodes.map fun n => if n.id = i then f n else n }

/-- Modelled from the spec: `has_observation` — whether some stored node
carries the given fingerprint (used to set the `redundant` flag). -/
def Graph.has_observation (g : Graph) (o : Obs) : Bool :=
  g.nodes.any fun n => n.observation == o

/-- Modelled from the spec: `get_edge_info(from, to)` lookup. -/
def Graph.get_edge_info (g : Graph) (a b : Nat) : Option Edge :=
  g.edges.find? fun e => e.node_from == a && e.node_to == b

/-- The mutable fields of the `MCTSAgent` object used by the planning core. -/
structure MState where
  graph : Graph
  root_id : Nat
  node_counter : Nat
  edge_counter : Nat
  num_rollouts : Nat
  use_opponent_model : Bool
  num_simulations : Nat
  forward_model_calls : Nat
  max_forward_model_calls : Nat
  num_iterations : Nat
  max_iterations : Nat
  elapsed_ms : Nat
  max_time_ms : Nat
  budget_type : String
  rng : Nat → Nat
  rng_idx : Nat

/-- One `self.forward_model_calls += 1` step. -/
def MState.bump_fm (st : MState) : MState :=
  { st with forward_model_calls := st.forward_model_calls + 1 }

/-- Embedding of `MCTSAgent.is_budget_over` (lines 45-53), identical in shape to the
graph agent's; the wall clock is abstracted as `elapsed_ms`. -/
def is_budget_over (st : MState) : Bool :=
  if st.budget_type = "MAX_FM_CALLS" then
    st.max_forward_model_calls ≤ st.forward_model_calls
  else if st.budget_type = "MAX_ITERATIONS" then
    st.max_iterations ≤ st.num_iterations
  else if st.budget_type = "MAX_TIME_MS" then
    st.max_time_ms ≤ st.elapsed_ms
  else
    false

/-- Embedding of `MCTSAgent.reset_budget` (lines 55-58). -/
def reset_budget (st : MState) : MState :=
  { st with forward_model_calls := 0, num_iterations := 0, elapsed_ms := 0 }

/-- Embedding of `MCTSAgent.get_opponent_id` (lines 69-73). -/
def get_opponent_id (pid : Pid) : Pid :=
  if pid = 0 then 1 else 0

/-- The statistics update `node.visits += 1; node.value += value` applied
at every node visited by the tree agent's `back_propagation` (lines
203-204). -/
def stat_update (value : ℚ) (m : Node) : Node :=
  { m with visits := m.visits + 1, value := m.value + value }

/-- Embedding of `MCTSAgent.back_propagation` (lines 201-207): increment `visits` and add
the value, breaking after updating a node flagged `chosen`, otherwise
stepping to the parent.  `none` models the `AttributeError` raised on the
next iteration when an unchosen node has no parent (Python assigns
`node = None` and then evaluates `None.visits`); fuel exhaustion (the
Python loop spinning on a cyclic chain) is also `none`. -/
def back_propagation (g : Graph) : Nat → Nat → ℚ → Option Graph
  | 0, _, _ => none
  | fuel + 1, i, value =>
    match g.get_node i with
    | none => none
    | some n =>
      let g := g.update_node i (stat_update value)
      if n.chosen then some g
      else
        match n.parent with
        | none => none
        | some p => back_propagation g fuel p value

/-- The `while True` loop of `MCTSAgent.rollout` (lines 169-197): stop on an
empty action set, on an exhausted budget, or on a terminal state; otherwise
advance with a freshly sampled random action (one counted forward-model
call), accumulate the heuristic reward, and optionally play a random
opponent response (not counted). -/
def rollout_loop {GS : Type} (env : Env GS) : Nat → GS → ℚ → MState → ℚ × MState
  | 0, _, cum_reward, st => (cum_reward, st)
  | fuel + 1, rollout_env, cum_reward, st =>
    let actions := env.generate_actions rollout_env env.player_id
    if actions.isEmpty then (cum_reward, st)
    else if is_budget_over st then (cum_reward, st)
    else if env.is_game_over rollout_env then (cum_reward, st)
    else
      let random_action := random_choice st.rng st.rng_idx actions
      let st := { st with rng_idx := st.rng_idx + 1 }
      let rollout_env := env.advance_gamestate rollout_env random_action
      let st := st.bump_fm
      let reward := env.evaluate_gamestate rollout_env
      let cum_reward := cum_reward + reward
      if st.use_opponent_model then
        let opp := get_opponent_id env.player_id
        let rollout_env := env.set_current_tbs_player rollout_env opp
        let opponent_actions := env.generate_actions rollout_env opp
        let random_opponent_action := random_choice st.rng st.rng_idx opponent_actions
        let st := { st with rng_idx := st.rng_idx + 1 }
        let rollout_env := env.advance_gamestate rollout_env random_opponent_action
        let rollout_env := env.set_current_tbs_player rollout_env env.player_id
        rollout_loop env fuel rollout_env cum_reward st
      else rollout_loop env fuel rollout_env cum_reward st

/-- Embedding of `MCTSAgent.rollout` (lines 165-198): clone the environment and run the
loop from a zero cumulative reward. -/
def rollout {GS : Type} (env : Env GS) (fuel : Nat) (e : GS) (st : MState) : ℚ × MState :=
  rollout_loop env fuel e 0 st

/-- The rollout repetition of `MCTSAgent.simulation` (lines 159-161). -/
def sim_aux {GS : Type} (env : Env GS) (fuel : Nat) (e : GS) :
    Nat → MState → List ℚ × MState
  | 0, st => ([], st)
  | k + 1, st =>
    let (average_reward, st) := rollout env fuel e st
    let (rewards, st) := sim_aux env fuel e k st
    (average_reward :: rewards, st)

/-- Embedding of `MCTSAgent.simulation` (lines 153-163): advance a clone with the edge
action into the child (this `advance_gamestate` is not counted against the
budget in the source), then average `num_rollouts` rollouts.  `none` models
the failing edge lookup for a parentless node. -/
def simulation {GS : Type} (env : Env GS) (fuel : Nat) (node : Node) (e : GS)
    (st : MState) : Option (ℚ × MState) :=
  match node.parent with
  | none => none
  | some p =>
    match st.graph.get_edge_info p node.id with
    | none => none
    | some edge =>
      let simulation_env := env.advance_gamestate e edge.action
      let (rewards, st) := sim_aux env fuel simulation_env st.num_rollouts st
      some (rat_mean rewards, st)

/-- Embedding of `MCTSAgent.compute_action` (lines 75-94).  The planning loop `plan` is
passed as a function argument: the single-legal-action shortcut must return
before planning regardless of what the loop would do, and the loop's UCT
descent is real-valued and plays no part in any claim about this entry
point.  `none` models a raised exception (a failing plan, or the `[-1]`
index on an empty action list). -/
def compute_action {GS : Type} (env : Env GS)
    (plan : GS → MState → Option (Act × MState)) (gs : GS) (st : MState) :
    Option (ActionAssignment × MState) :=
  let st := reset_budget st
  let possible_actions := env.generate_actions gs env.player_id
  if possible_actions.length = 1 then
    some (ActionAssignment.single (possible_actions.headD 0), st)
  else
    match plan gs st with
    | none => none
    | some (action, st) =>
      if env.validate action gs then some (ActionAssignment.single action, st)
      else
        match possible_actions.getLast? with
        | none => none
        | some fallback => some (ActionAssignment.single fallback, st)

/-- Embedding of `Node.uct_value` of `src/MCTSAgent.py` (lines 249-253).  The Python
expression is `mean + c * sqrt(log(parent.visits if parent is not None
else 1 + 1) / visits)`: by Python operator precedence the `+ 1` belongs to
the `else` arm only, so a live parent contributes `log(parent.visits)`.
`none` models the `ZeroDivisionError` of `value / visits` at zero visits
and the `math.log(0)` domain error at a zero-visit parent. -/
noncomputable def uct_value (n : Node) (parent : Option Node) : Option ℝ :=
  if n.visits = 0 then none
  else
    match parent with
    | some p =>
      if p.visits = 0 then none
      else
        some ((n.value : ℝ) / n.visits +
          1 / Real.sqrt 2 * Real.sqrt (Real.log p.visits / n.visits))
    | none =>
      some ((n.value : ℝ) / n.visits +
        1 / Real.sqrt 2 * Real.sqrt (Real.log 2 / n.visits))

end MCTS

/-- The selection score exactly as the spec states it: `value +
c * sqrt(ln(parent.visits + 1) / visits)` with `c = 1/sqrt(2)`, where
`value` is the node's mean value, `pv` the parent's visit count and `vis`
the node's visit count. -/
noncomputable def uct_spec_formula (value : ℝ) (pv vis : Nat) : ℝ :=
  value + 1 / Real.sqrt 2 * Real.sqrt (Real.log (pv + 1) / vis)

namespace MCGS

lemma map_id_of_update (xs : List Node) (o : Obs) (f : Node → Node)
    (hf : ∀ n, (f n).id = n.id) :
    (xs.map fun n => if n.id = o then f n else n).map Node.id = xs.map Node.id := by
  induction xs with
  | nil => rfl
  | cons x xs ih =>
    simp only [List.map_cons]
    rw [ih]
    congr 1
    split
    · exact hf x
    · rfl

lemma ids_update_node (g : Graph) (o : Obs) (f : Node → Node)
    (hf : ∀ n, (f n).id = n.id) :
    (g.update_node o f).nodes.map Node.id = g.nodes.map Node.id :=
  map_id_of_update g.nodes o f hf

lemma ids_add_edge (st : AState) (p c : Node) (a : Option Act) (r : ℚ) :
    (add_edge st p c a r).2.graph.nodes.map Node.id = st.graph.nodes.map Node.id := by
  unfold add_edge
  dsimp only
  split
  · split
    · exact ids_update_node _ _ _ fun n => rfl
    · rfl
  · split
    · exact ids_update_node _ _ _ fun n => rfl
    · rfl

lemma ids_add_node_of_has (st : AState) (n : Node) (h : st.graph.has_node n.id = true) :
    (add_node st n).graph.nodes.map Node.id = st.graph.nodes.map Node.id := by
  unfold add_node
  simp [h]

lemma ids_add_node_of_not_has (st : AState) (n : Node)
    (h : st.graph.has_node n.id = false) :
    (add_node st n).graph.nodes.map Node.id = st.graph.nodes.map Node.id ++ [n.id] := by
  unfold add_node
  simp [h, Graph.add_node, Graph.add_to_frontier]

lemma not_mem_ids_of_not_has (g : Graph) (o : Obs) (h : g.has_node o = false) :
    o ∉ g.nodes.map Node.id := by
  intro hmem
  rcases List.mem_map.mp hmem with ⟨n, hn, hid⟩
  have : g.has_node o = true := by
    unfold Graph.has_node
    rw [List.any_eq_true]
    exact ⟨n, hn, by simp [hid]⟩
  rw [h] at this
  exact Bool.false_ne_true this

lemma isSome_get_node_info_of_has (g : Graph) (o : Obs) (h : g.has_node o = true) :
    (g.get_node_info o).isSome := by
  unfold Graph.has_node at h
  unfold Graph.get_node_info
  rw [List.any_eq_true] at h
  rcases h with ⟨n, hn, hp⟩
  rw [List.find?_isSome]
  exact ⟨n, hn, hp⟩

lemma ids_add_new_observation_of_has (st : AState) (o : Obs) (p : Node)
    (a : Option Act) (r : ℚ) (h : st.graph.has_node o = true) :
    (add_new_observation st o p a r).2.2.graph.nodes.map Node.id =
      st.graph.nodes.map Node.id := by
  rcases Option.isSome_iff_exists.mp (isSome_get_node_info_of_has st.graph o h) with ⟨c, hc⟩
  unfold add_new_observation
  simp [h, hc, ids_add_edge]

lemma ids_add_new_observation_of_not_has (st : AState) (o : Obs) (p : Node)
    (a : Option Act) (r : ℚ) (h : st.graph.has_node o = false) :
    (add_new_observation st o p a r).2.2.graph.nodes.map Node.id =
      st.graph.nodes.map Node.id ++ [o] := by
  unfold add_new_observation
  simp only [h, Bool.false_eq_true, if_false]
  rw [ids_add_edge, ids_add_node_of_not_has st _ h]
  rfl

lemma dedup_of_ids_eq {g g' : Graph}
    (h : g'.nodes.map Node.id = g.nodes.map Node.id) (hd : nodes_dedup g) :
    nodes_dedup g' := by
  unfold nodes_dedup at hd ⊢
  rw [h]
  exact hd

lemma dedup_add_new_observation (st : AState) (o : Obs) (p : Node) (a : Option Act)
    (r : ℚ) (hd : nodes_dedup st.graph) :
    nodes_dedup (add_new_observation st o p a r).2.2.graph := by
  by_cases h : st.graph.has_node o = true
  · exact dedup_of_ids_eq (ids_add_new_observation_of_has st o p a r h) hd
  · have h' : st.graph.has_node o = false := Bool.not_eq_true _ ▸ eq_false_of_ne_true h
    unfold nodes_dedup
    rw [ids_add_new_observation_of_not_has st o p a r h']
    rw [List.nodup_append]
    exact ⟨hd, List.nodup_singleton o,
      by simpa [List.disjoint_singleton] using not_mem_ids_of_not_has st.graph o h'⟩

lemma dedup_add_node (st : AState) (n : Node) (hd : nodes_dedup st.graph) :
    nodes_dedup (add_node st n).graph := by
  by_cases h : st.graph.has_node n.id = true
  · exact dedup_of_ids_eq (ids_add_node_of_has st n h) hd
  · have h' : st.graph.has_node n.id = false := Bool.not_eq_true _ ▸ eq_false_of_ne_true h
    unfold nodes_dedup
    rw [ids_add_node_of_not_has st n h']
    rw [List.nodup_append]
    exact ⟨hd, List.nodup_singleton _,
      by simpa [List.disjoint_singleton] using not_mem_ids_of_not_has st.graph n.id h'⟩

end MCGS

/-- C1: for every observation fingerprint at most one live node with that
fingerprint exists in the graph store: `add_new_observation` adds no node
when the fingerprint is already present, adds exactly the one new node when
it is absent, and consequently every sequence of node-creating operations
(expansions, path-replay discoveries, direct `add_node` calls) preserves
the pairwise distinctness of the stored fingerprints. -/
theorem C1_dedup_invariant :
    (∀ (st : MCGS.AState) (o : Obs) (p : MCGS.Node) (a : Option Act) (r : ℚ),
      st.graph.has_node o = true →
      (MCGS.add_new_observation st o p a r).2.2.graph.nodes.map MCGS.Node.id =
        st.graph.nodes.map MCGS.Node.id) ∧
    (∀ (st : MCGS.AState) (o : Obs) (p : MCGS.Node) (a : Option Act) (r : ℚ),
      st.graph.has_node o = false →
      (MCGS.add_new_observation st o p a r).2.2.graph.nodes.map MCGS.Node.id =
        st.graph.nodes.map MCGS.Node.id ++ [o]) ∧
    (∀ (ops : List MCGS.GOp) (st : MCGS.AState),
      MCGS.nodes_dedup st.graph → MCGS.nodes_dedup (MCGS.apply_g_ops ops st).graph) := by
  refine ⟨MCGS.ids_add_new_observation_of_has, MCGS.ids_add_new_observation_of_not_has, ?_⟩
  intro ops
  induction ops with
  | nil => intro st hd; exact hd
  | cons op ops ih =>
    intro st hd
    cases op with
    | new_obs o p a r => exact ih _ (MCGS.dedup_add_new_observation st o p a r hd)
    | add n => exact ih _ (MCGS.dedup_add_node st n hd)

/-- The root node as established by `MCGSAgent.init` (line 95): fingerprint
of the initial observation, no parent, a chosen leaf with zero statistics. -/
def root0 : MCGS.Node :=
  { id := 0, parent := none, action := none, total_value := 0, visits := 0,
    is_leaf := true, chosen := true, unreachable := false }

/-- The agent state established by `MCGSAgent.init` (lines 83-108) for an
initial observation `0`: one root node, counters zeroed, the default
budgets, and the seeded PRNG abstracted as the zero stream. -/
def gstate0 : MCGS.AState :=
  { graph := { nodes := [root0], edges := [], frontier := [0], root := none },
    root_id := 0, node_counter := 1, edge_counter := 0, num_rollouts := 8,
    rollout_depth := 10, num_simulations := 0, forward_model_calls := 0,
    max_forward_model_calls := 1000, num_iterations := 0, max_iterations := 1000,
    elapsed_ms := 0, max_time_ms := 1000, budget_type := "MAX_FM_CALLS",
    rng := fun _ => 0, rng_idx := 0 }

/-- Witness for C1: two expansions discovering the same fingerprint `5`
from different parents leave exactly one stored node with fingerprint `5`. -/
theorem C1_dedup_invariant_witness :
    MCGS.nodes_dedup gstate0.graph ∧
    MCGS.nodes_dedup
      (MCGS.apply_g_ops
        [MCGS.GOp.new_obs 5 root0 (some 0) 1, MCGS.GOp.new_obs 5 root0 (some 1) 2]
        gstate0).graph ∧
    ((MCGS.apply_g_ops
        [MCGS.GOp.new_obs 5 root0 (some 0) 1, MCGS.GOp.new_obs 5 root0 (some 1) 2]
        gstate0).graph.nodes.filter fun n => n.id == 5).length = 1 :=
  ⟨by decide, C1_dedup_invariant.2.2 _ gstate0 (by decide), by decide⟩

namespace MCGS

lemma back_propagation_none (g : Graph) (fuel : Nat) (r : ℚ) :
    back_propagation g fuel none r = g := by
  cases fuel <;> rfl

end MCGS

/-- C3 (amended): the stop conditions are the opposite of the claim — the
graph-search variant's `back_propagation` walks the live-parent chain until
the parentless absolute root, continuing straight through `chosen` nodes,
while the tree-search variant stops at the first node flagged `chosen`
(even when it still has a parent) and raises when an unchosen parentless
node is reached instead of stopping there. -/
theorem C3_backprop_stop_conditions :
    (∀ (g : MCGS.Graph) (fuel : Nat) (i : Obs) (r : ℚ) (n : MCGS.Node),
      g.get_node_info i = some n → n.parent = none →
      MCGS.back_propagation g (fuel + 1) (some i) r =
        g.update_node i (MCGS.stat_update r)) ∧
    (∀ (g : MCGS.Graph) (fuel : Nat) (i p : Obs) (r : ℚ) (n : MCGS.Node),
      g.get_node_info i = some n → n.parent = some p → n.chosen = true →
      MCGS.back_propagation g (fuel + 1) (some i) r =
        MCGS.back_propagation (g.update_node i (MCGS.stat_update r)) fuel (some p) r) ∧
    (∀ (t : MCTS.Graph) (fuel : Nat) (i : Nat) (v : ℚ) (n : MCTS.Node),
      t.get_node i = some n → n.chosen = true →
      MCTS.back_propagation t (fuel + 1) i v =
        some (t.update_node i (MCTS.stat_update v))) ∧
    (∀ (t : MCTS.Graph) (fuel : Nat) (i p : Nat) (v : ℚ) (n : MCTS.Node),
      t.get_node i = some n → n.chosen = false → n.parent = some p →
      MCTS.back_propagation t (fuel + 1) i v =
        MCTS.back_propagation (t.update_node i (MCTS.stat_update v)) fuel p v) ∧
    (∀ (t : MCTS.Graph) (fuel : Nat) (i : Nat) (v : ℚ) (n : MCTS.Node),
      t.get_node i = some n → n.chosen = false → n.parent = none →
      MCTS.back_propagation t (fuel + 1) i v = none) := by
  refine ⟨?_, ?_, ?_, ?_, ?_⟩
  · intro g fuel i r n hn hp
    conv_lhs => rw [MCGS.back_propagation]
    rw [hn]
    dsimp only
    rw [hp, MCGS.back_propagation_none]
  · intro g fuel i p r n hn hp _
    conv_lhs => rw [MCGS.back_propagation]
    rw [hn]
    dsimp only
    rw [hp]
  · intro t fuel i v n hn hc
    conv_lhs => rw [MCTS.back_propagation]
    rw [hn]
    dsimp only
    rw [if_pos hc]
  · intro t fuel i p v n hn hc hp
    conv_lhs => rw [MCTS.back_propagation]
    rw [hn]
    dsimp only
    rw [if_neg (by simp [hc]), hp]
  · intro t fuel i v n hn hc hp
    conv_lhs => rw [MCTS.back_propagation]
    rw [hn]
    dsimp only
    rw [if_neg (by simp [hc]), hp]

/-- Bottom node of the `g3` chain. -/
def g3n1 : MCGS.Node :=
  { id := 1, parent := some 2, action := none, total_value := 0, visits := 0,
    is_leaf := true, chosen := false, unreachable := false }

/-- Middle node of the `g3` chain, flagged `chosen` with a live parent (as
a previous root is after re-rooting). -/
def g3n2 : MCGS.Node :=
  { id := 2, parent := some 3, action := none, total_value := 0, visits := 0,
    is_leaf := false, chosen := true, unreachable := false }

/-- Top node of the `g3` chain: the parentless absolute root. -/
def g3n3 : MCGS.Node :=
  { id := 3, parent := none, action := none, total_value := 0, visits := 0,
    is_leaf := false, chosen := false, unreachable := false }

/-- A three-node graph-agent chain `1 → 2 → 3` whose middle node `2` is
flagged `chosen` while the top node `3` is the parentless absolute root. -/
def g3 : MCGS.Graph :=
  { nodes := [g3n1, g3n2, g3n3], edges := [], frontier := [], root := some 3 }

/-- Bottom node of the `t3` chain. -/
def t3n1 : MCTS.Node :=
  { id := 1, observation := 10, parent := some 2, value := 0, visits := 0,
    is_leaf := true, redundant := false, chosen := false, unreachable := false }

/-- Middle node of the `t3` chain, flagged `chosen` with a live parent. -/
def t3n2 : MCTS.Node :=
  { id := 2, observation := 11, parent := some 3, value := 0, visits := 0,
    is_leaf := false, redundant := false, chosen := true, unreachable := false }

/-- Top node of the `t3` chain: the parentless absolute root. -/
def t3n3 : MCTS.Node :=
  { id := 3, observation := 12, parent := none, value := 0, visits := 0,
    is_leaf := false, redundant := false, chosen := true, unreachable := false }

/-- A three-node tree-agent chain `1 → 2 → 3` whose middle node `2` is
flagged `chosen` while the top node `3` is the parentless absolute root. -/
def t3 : MCTS.Graph :=
  { nodes := [t3n1, t3n2, t3n3], edges := [] }

/-- A single unchosen parentless tree-agent node, on which the tree
variant's backpropagation raises. -/
def t3lone_node : MCTS.Node :=
  { id := 9, observation := 0, parent := none, value := 0, visits := 0,
    is_leaf := true, redundant := false, chosen := false, unreachable := false }

/-- The one-node arena holding `t3lone_node`. -/
def t3lone : MCTS.Graph :=
  { nodes := [t3lone_node], edges := [] }

namespace MCGS

/-- The visit count stored for fingerprint `j` (`0` when absent). -/
def visits_at (g : Graph) (j : Obs) : Nat :=
  ((g.get_node_info j).map Node.visits).getD 0

/-- The total value stored for fingerprint `j` (`0` when absent). -/
def total_at (g : Graph) (j : Obs) : ℚ :=
  ((g.get_node_info j).map Node.total_value).getD 0

/-- The live-parent chain walked by `back_propagation`: the fingerprints it
updates, in order, for a given fuel and start. -/
def chain (g : Graph) : Nat → Option Obs → List Obs
  | 0, _ => []
  | _ + 1, none => []
  | fuel + 1, some i =>
    match g.get_node_info i with
    | none => []
    | some n => i :: chain g fuel n.parent

lemma find?_map_id_preserving (xs : List Node) (o : Obs) (f : Node → Node)
    (hf : ∀ n, (f n).id = n.id) (j : Obs) :
    ((xs.map fun n => if n.id = o then f n else n).find? fun n => n.id == j) =
      (xs.find? fun n => n.id == j).map fun n => if n.id = o then f n else n := by
  induction xs with
  | nil => rfl
  | cons x xs ih =>
    have hid : (if x.id = o then f x else x).id = x.id := by
      split
      · exact hf x
      · rfl
    simp only [List.map_cons, List.find?]
    rw [hid]
    cases x.id == j with
    | true => rfl
    | false => exact ih

lemma get_node_info_update_node (g : Graph) (o : Obs) (f : Node → Node)
    (hf : ∀ n, (f n).id = n.id) (j : Obs) :
    (g.update_node o f).get_node_info j =
      (g.get_node_info j).map fun n => if n.id = o then f n else n :=
  find?_map_id_preserving g.nodes o f hf j

lemma get_node_info_id {g : Graph} {j : Obs} {m : Node}
    (hg : g.get_node_info j = some m) : m.id = j := by
  unfold Graph.get_node_info at hg
  have hp := List.find?_some hg
  exact beq_iff_eq.mp hp

lemma chain_update_stat (g : Graph) (o : Obs) (r : ℚ) (fuel : Nat) :
    ∀ s, chain (g.update_node o (stat_update r)) fuel s = chain g fuel s := by
  induction fuel with
  | zero => intro s; cases s <;> rfl
  | succ fuel ih =>
    intro s
    cases s with
    | none => rfl
    | some i =>
      conv_lhs => rw [chain]
      conv_rhs => rw [chain]
      rw [get_node_info_update_node g o (stat_update r) (fun n => rfl) i]
      cases hg : g.get_node_info i with
      | none => rfl
      | some n =>
        dsimp only [Option.map]
        have hp : (if n.id = o then stat_update r n else n).parent = n.parent := by
          split <;> rfl
        rw [hp, ih]

lemma visits_at_update_stat (g : Graph) (o : Obs) (r : ℚ) (j : Obs)
    (hsome : (g.get_node_info o).isSome = true) :
    visits_at (g.update_node o (stat_update r)) j =
      visits_at g j + if j = o then 1 else 0 := by
  unfold visits_at
  rw [get_node_info_update_node g o (stat_update r) (fun n => rfl) j]
  cases hg : g.get_node_info j with
  | none =>
    have hne : ¬j = o := by
      rintro rfl
      rw [hg] at hsome
      simp at hsome
    simp [hne]
  | some m =>
    have hm : m.id = j := get_node_info_id hg
    by_cases hj : j = o
    · subst hj
      simp [Option.map, hm, stat_update]
    · have hmo : ¬m.id = o := by rw [hm]; exact hj
      simp [Option.map, hmo, hj]

lemma total_at_update_stat (g : Graph) (o : Obs) (r : ℚ) (j : Obs)
    (hsome : (g.get_node_info o).isSome = true) :
    total_at (g.update_node o (stat_update r)) j =
      total_at g j + if j = o then r else 0 := by
  unfold total_at
  rw [get_node_info_update_node g o (stat_update r) (fun n => rfl) j]
  cases hg : g.get_node_info j with
  | none =>
    have hne : ¬j = o := by
      rintro rfl
      rw [hg] at hsome
      simp at hsome
    simp [hne]
  | some m =>
    have hm : m.id = j := get_node_info_id hg
    by_cases hj : j = o
    · subst hj
      simp [Option.map, hm, stat_update]
    · have hmo : ¬m.id = o := by rw [hm]; exact hj
      simp [Option.map, hmo, hj]

lemma isSome_update_stat (g : Graph) (o : Obs) (r : ℚ) (j : Obs) :
    ((g.update_node o (stat_update r)).get_node_info j).isSome =
      (g.get_node_info j).isSome := by
  rw [get_node_info_update_node g o (stat_update r) (fun n => rfl) j]
  cases g.get_node_info j <;> rfl

lemma back_propagation_visits (fuel : Nat) :
    ∀ (g : Graph) (s : Option Obs) (r : ℚ) (j : Obs),
      visits_at (back_propagation g fuel s r) j =
        visits_at g j + (chain g fuel s).count j := by
  induction fuel with
  | zero => intro g s r j; cases s <;> simp [back_propagation, chain]
  | succ fuel ih =>
    intro g s r j
    cases s with
    | none => simp [back_propagation, chain]
    | some i =>
      conv_lhs => rw [back_propagation]
      conv_rhs => rw [chain]
      cases hg : g.get_node_info i with
      | none => simp
      | some n =>
        dsimp only
        rw [ih, chain_update_stat,
          visits_at_update_stat g i r j (by rw [hg]; rfl), List.count_cons]
        rcases eq_or_ne j i with hj | hj
        · subst hj
          simp only [if_pos rfl, beq_self_eq_true, if_true]
          omega
        · have h2 : (i == j) = false := beq_eq_false_iff_ne.mpr (Ne.symm hj)
          simp [hj, h2]

lemma back_propagation_total (fuel : Nat) :
    ∀ (g : Graph) (s : Option Obs) (r : ℚ) (j : Obs),
      total_at (back_propagation g fuel s r) j =
        total_at g j + ((chain g fuel s).count j : ℚ) * r := by
  induction fuel with
  | zero => intro g s r j; cases s <;> simp [back_propagation, chain]
  | succ fuel ih =>
    intro g s r j
    cases s with
    | none => simp [back_propagation, chain]
    | some i =>
      conv_lhs => rw [back_propagation]
      conv_rhs => rw [chain]
      cases hg : g.get_node_info i with
      | none => simp
      | some n =>
        dsimp only
        rw [ih, chain_update_stat,
          total_at_update_stat g i r j (by rw [hg]; rfl), List.count_cons]
        rcases eq_or_ne j i with hj | hj
        · subst hj
          simp only [if_pos rfl, beq_self_eq_true, if_true]
          push_cast
          ring
        · have h2 : (i == j) = false := beq_eq_false_iff_ne.mpr (Ne.symm hj)
          simp only [if_neg hj, h2, Bool.false_eq_true, if_false, Nat.add_zero, add_zero]

lemma chain_back_propagation (fuel : Nat) :
    ∀ (g : Graph) (s : Option Obs) (r : ℚ) (fuel' : Nat) (s' : Option Obs),
      chain (back_propagation g fuel s r) fuel' s' = chain g fuel' s' := by
  induction fuel with
  | zero => intro g s r fuel' s'; cases s <;> rfl
  | succ fuel ih =>
    intro g s r fuel' s'
    cases s with
    | none => rfl
    | some i =>
      conv_lhs => rw [back_propagation]
      cases hg : g.get_node_info i with
      | none => rfl
      | some n =>
        dsimp only
        rw [ih, chain_update_stat]

lemma isSome_back_propagation (fuel : Nat) :
    ∀ (g : Graph) (s : Option Obs) (r : ℚ) (j : Obs),
      ((back_propagation g fuel s r).get_node_info j).isSome =
        (g.get_node_info j).isSome := by
  induction fuel with
  | zero => intro g s r j; cases s <;> rfl
  | succ fuel ih =>
    intro g s r j
    cases s with
    | none => rfl
    | some i =>
      conv_lhs => rw [back_propagation]
      cases hg : g.get_node_info i with
      | none => rfl
      | some n =>
        dsimp only
        rw [ih, isSome_update_stat]

/-- The `N` backpropagation calls contributing rewards `rs` to the node
with fingerprint `i` (one `back_propagation(child, reward)` per
simulation of `plan`). -/
def apply_back_props (g : Graph) (fuel : Nat) (i : Obs) (rs : List ℚ) : Graph :=
  rs.foldl (fun h r => back_propagation h fuel (some i) r) g

lemma apply_back_props_visits (rs : List ℚ) :
    ∀ (g : Graph) (fuel : Nat) (i j : Obs),
      visits_at (apply_back_props g fuel i rs) j =
        visits_at g j + (chain g fuel (some i)).count j * rs.length := by
  induction rs with
  | nil => intro g fuel i j; simp [apply_back_props]
  | cons r rs ih =>
    intro g fuel i j
    show visits_at (apply_back_props (back_propagation g fuel (some i) r) fuel i rs) j = _
    rw [ih, back_propagation_visits, chain_back_propagation, List.length_cons]
    ring

lemma apply_back_props_total (rs : List ℚ) :
    ∀ (g : Graph) (fuel : Nat) (i j : Obs),
      total_at (apply_back_props g fuel i rs) j =
        total_at g j + ((chain g fuel (some i)).count j : ℚ) * rs.sum := by
  induction rs with
  | nil => intro g fuel i j; simp [apply_back_props]
  | cons r rs ih =>
    intro g fuel i j
    show total_at (apply_back_props (back_propagation g fuel (some i) r) fuel i rs) j = _
    rw [ih, back_propagation_total, chain_back_propagation, List.sum_cons]
    ring

lemma isSome_apply_back_props (rs : List ℚ) :
    ∀ (g : Graph) (fuel : Nat) (i j : Obs),
      ((apply_back_props g fuel i rs).get_node_info j).isSome =
        (g.get_node_info j).isSome := by
  induction rs with
  | nil => intro g fuel i j; rfl
  | cons r rs ih =>
    intro g fuel i j
    show ((apply_back_props (back_propagation g fuel (some i) r) fuel i rs).get_node_info
        j).isSome = _
    rw [ih, isSome_back_propagation]

end MCGS

/-- C4 (amended): after `N` backpropagation calls contributing rewards
`r_1..r_N` to a node, that node and every ancestor occurring once on its
live-parent chain gain exactly `N` visits and exactly `Σ r_i` of total
value; but a freshly created node starts with `total_value` equal to its
creation reward (`Node.__init__`), so its displayed value after the calls
is `(creation_reward + Σ r_i) / N`, which matches the arithmetic mean of
the backpropagated contributions only when the creation reward is zero. -/
theorem C4_backprop_statistics :
    (∀ (g : MCGS.Graph) (fuel : Nat) (i j : Obs) (rs : List ℚ),
      (MCGS.chain g fuel (some i)).count j = 1 →
      MCGS.visits_at (MCGS.apply_back_props g fuel i rs) j =
        MCGS.visits_at g j + rs.length ∧
      MCGS.total_at (MCGS.apply_back_props g fuel i rs) j =
        MCGS.total_at g j + rs.sum) ∧
    (∀ (g : MCGS.Graph) (fuel : Nat) (i : Obs) (rs : List ℚ) (n : MCGS.Node),
      g.get_node_info i = some n → n.visits = 0 →
      (MCGS.chain g fuel (some i)).count i = 1 → rs ≠ [] →
      ((MCGS.apply_back_props g fuel i rs).get_node_info i).map MCGS.Node.value =
        some ((n.total_value + rs.sum) / rs.length)) := by
  constructor
  · intro g fuel i j rs h
    constructor
    · rw [MCGS.apply_back_props_visits, h, one_mul]
    · rw [MCGS.apply_back_props_total, h]
      push_cast
      ring
  · intro g fuel i rs n hg hv hc hrs
    have hsome : ((MCGS.apply_back_props g fuel i rs).get_node_info i).isSome = true := by
      rw [MCGS.isSome_apply_back_props, hg]
      rfl
    rcases Option.isSome_iff_exists.mp hsome with ⟨m, hm⟩
    have hvis : m.visits = rs.length := by
      have h1 : MCGS.visits_at (MCGS.apply_back_props g fuel i rs) i = m.visits := by
        unfold MCGS.visits_at
        rw [hm]
        rfl
      have h2 : MCGS.visits_at g i = n.visits := by
        unfold MCGS.visits_at
        rw [hg]
        rfl
      have := MCGS.apply_back_props_visits rs g fuel i i
      rw [h1, h2, hv, hc] at this
      simpa using this
    have htot : m.total_value = n.total_value + rs.sum := by
      have h1 : MCGS.total_at (MCGS.apply_back_props g fuel i rs) i = m.total_value := by
        unfold MCGS.total_at
        rw [hm]
        rfl
      have h2 : MCGS.total_at g i = n.total_value := by
        unfold MCGS.total_at
        rw [hg]
        rfl
      have := MCGS.apply_back_props_total rs g fuel i i
      rw [h1, h2, hc] at this
      simpa using this
    have hlen : rs.length ≠ 0 := by
      intro h0
      exact hrs (List.length_eq_zero.mp h0)
    rw [hm, Option.map_some']
    congr 1
    unfold MCGS.Node.value
    rw [if_neg (by rw [hvis]; exact hlen), htot, hvis]

/-- A freshly expanded node: fingerprint `7`, created with reward `1`
(hence `total_value = 1`) and zero visits. -/
def g4node : MCGS.Node :=
  { id := 7, parent := none, action := none, total_value := 1, visits := 0,
    is_leaf := true, chosen := false, unreachable := false }

/-- The one-node arena holding the fresh node `g4node`. -/
def g4 : MCGS.Graph :=
  { nodes := [g4node], edges := [], frontier := [7], root := none }

/-- Counterexample for C4 as stated: the fresh node of `g4` was created
with reward `1`, receives one backpropagated contribution of `0`, and then
holds `visits = 1` and `total_value = 1`, so `total_value / visits = 1` —
not the arithmetic mean `0` of its backpropagated contributions, because
`total_value` starts at the creation reward rather than at zero. -/
theorem C4_counterexample :
    MCGS.visits_at g4 7 = 0 ∧
    MCGS.total_at g4 7 = 1 ∧
    MCGS.visits_at (MCGS.back_propagation g4 2 (some 7) 0) 7 = 1 ∧
    MCGS.total_at (MCGS.back_propagation g4 2 (some 7) 0) 7 = 1 ∧
    rat_mean [0] = 0 ∧ (1 : ℚ) / 1 ≠ rat_mean [0] := by
  refine ⟨rfl, rfl, by decide, ?_, by norm_num [rat_mean], by norm_num [rat_mean]⟩
  rw [MCGS.back_propagation_total]
  norm_num
  rfl

/-- Witness for C4 (amended): concrete statistics deltas along the `g3`
chain and the displayed value of the fresh `g4` node. -/
theorem C4_backprop_statistics_witness :
    (MCGS.chain g3 5 (some 1)).count 2 = 1 ∧
    MCGS.visits_at (MCGS.apply_back_props g3 5 1 [1, 2]) 2 =
      MCGS.visits_at g3 2 + ([1, 2] : List ℚ).length ∧
    MCGS.total_at (MCGS.apply_back_props g3 5 1 [1, 2]) 2 =
      MCGS.total_at g3 2 + ([1, 2] : List ℚ).sum ∧
    ((MCGS.apply_back_props g4 2 7 [2]).get_node_info 7).map MCGS.Node.value =
      some ((g4node.total_value + ([2] : List ℚ).sum) / (([2] : List ℚ).length : ℚ)) := by
  refine ⟨by decide, ?_, ?_, ?_⟩
  · exact (C4_backprop_statistics.1 g3 5 1 2 [1, 2] (by decide)).1
  · exact (C4_backprop_statistics.1 g3 5 1 2 [1, 2] (by decide)).2
  · exact C4_backprop_statistics.2 g4 2 7 [2] g4node rfl rfl (by decide)
      (List.cons_ne_nil 2 [])

/-- Counterexample for C3 as stated: starting from node `1`, the
graph-search variant updates the parentless root `3` even though `2`, the
nearest `chosen` ancestor, sits below it (the claim predicts propagation
stops at `2`), while the tree-search variant leaves the absolute root `3`
untouched because it stops at the `chosen` node `2` (the claim predicts
propagation reaches the parentless root). -/
theorem C3_counterexample :
    ((g3.get_node_info 2).map MCGS.Node.chosen = some true ∧
      (g3.get_node_info 3).map MCGS.Node.parent = some none ∧
      ((MCGS.back_propagation g3 5 (some 1) 1).get_node_info 3).map MCGS.Node.visits =
        some 1) ∧
    ((t3.get_node 2).map MCTS.Node.chosen = some true ∧
      (t3.get_node 3).map MCTS.Node.parent = some none ∧
      (MCTS.back_propagation t3 5 1 1).map
          (fun t => (t.get_node 3).map MCTS.Node.visits) = some (some 0)) := by
  decide

/-- Witness for C3 (amended): each stop-condition equation applied at a
concrete node of the `g3`/`t3` chains. -/
theorem C3_backprop_stop_conditions_witness :
    (MCGS.back_propagation g3 3 (some 3) 1 = g3.update_node 3 (MCGS.stat_update 1)) ∧
    (MCGS.back_propagation g3 3 (some 2) 1 =
      MCGS.back_propagation (g3.update_node 2 (MCGS.stat_update 1)) 2 (some 3) 1) ∧
    (MCTS.back_propagation t3 3 2 1 = some (t3.update_node 2 (MCTS.stat_update 1))) ∧
    (MCTS.back_propagation t3 3 1 1 =
      MCTS.back_propagation (t3.update_node 1 (MCTS.stat_update 1)) 2 2 1) ∧
    (MCTS.back_propagation t3lone 3 9 1 = none) :=
  ⟨C3_backprop_stop_conditions.1 g3 2 3 1 g3n3 (by decide) rfl,
   C3_backprop_stop_conditions.2.1 g3 2 2 3 1 g3n2 (by decide) rfl rfl,
   C3_backprop_stop_conditions.2.2.1 t3 2 2 1 t3n2 (by decide) rfl,
   C3_backprop_stop_conditions.2.2.2.1 t3 2 1 2 1 t3n1 (by decide) rfl rfl,
   C3_backprop_stop_conditions.2.2.2.2 t3lone 2 9 1 t3lone_node (by decide) rfl rfl⟩

/-- C2 (amended): under the `MAX_FM_CALLS` mode the budget is consulted
only at iteration boundaries — once `forward_model_calls` has reached the
bound the planning loop performs nothing further — but the calls made
inside a single iteration are not individually capped, so one `plan()`
invocation may overshoot the bound by the cost of its final iteration. -/
theorem C2_budget_boundary {GS : Type} (env : Env GS) (gs : GS) (fuel : Nat)
    (st : MCGS.AState) (h : MCGS.is_budget_over st = true) :
    MCGS.plan_loop env gs fuel st = st := by
  cases fuel with
  | zero => rfl
  | succ fuel =>
    unfold MCGS.plan_loop
    rw [h]
    simp

/-- The environment of the budget-overshoot run: two legal actions
everywhere, deterministic transitions, zero heuristic reward. -/
def env2 : Env Nat :=
  { get_observation := fun s => s
    generate_actions := fun _ _ => [0, 1]
    advance_gamestate := fun s a => 2 * s + a + 1
    is_game_over := fun _ => false
    evaluate_gamestate := fun _ => 0
    create_end_action := fun _ a => a
    validate := fun _ _ => true
    set_current_tbs_player := fun s _ => s
    player_id := 0 }

/-- The initial agent state with the forward-model budget set to `B = 1`. -/
def gstateB1 : MCGS.AState :=
  { gstate0 with max_forward_model_calls := 1 }

set_option maxRecDepth 100000 in
set_option maxHeartbeats 2000000 in
/-- Counterexample for C2 as stated: with budget bound `B = 1` the planning
loop of `plan()` performs `178` forward-model calls — the root expansion
(2 actions) plus 8 rollouts of depth 10 (11 calls each) for both children
all happen inside the first iteration, before the budget is looked at
again. -/
theorem C2_counterexample :
    gstateB1.max_forward_model_calls = 1 ∧
    (MCGS.plan_loop env2 0 2 gstateB1).forward_model_calls = 178 := by
  constructor
  · rfl
  · decide

/-- Witness for C2 (amended): a state already at its budget passes through
the loop unchanged. -/
theorem C2_budget_boundary_witness :
    MCGS.is_budget_over (MCGS.AState.bump_fm gstateB1) = true ∧
    MCGS.plan_loop env2 0 3 (MCGS.AState.bump_fm gstateB1) =
      MCGS.AState.bump_fm gstateB1 :=
  ⟨rfl, C2_budget_boundary env2 0 3 (MCGS.AState.bump_fm gstateB1) rfl⟩

/-- C6 (amended): `Node.value` of the graph agent is guarded — zero visits
yield `0` with no division, positive visits yield `total_value / visits` —
but the UCT scores of both variants divide by `visits` unguarded, so
evaluating `uct_value` on a zero-visit node raises (is undefined) in both
agents rather than never dividing by zero. -/
theorem C6_zero_visit_guard :
    (∀ n : MCGS.Node, n.visits = 0 → n.value = 0) ∧
    (∀ n : MCGS.Node, n.visits ≠ 0 → n.value = n.total_value / n.visits) ∧
    (∀ (n : MCGS.Node) (p : Option MCGS.Node), n.visits = 0 →
      MCGS.uct_value n p = none) ∧
    (∀ (n : MCTS.Node) (p : Option MCTS.Node), n.visits = 0 →
      MCTS.uct_value n p = none) := by
  refine ⟨?_, ?_, ?_, ?_⟩
  · intro n h
    unfold MCGS.Node.value
    rw [if_pos h]
  · intro n h
    unfold MCGS.Node.value
    rw [if_neg h]
  · intro n p h
    unfold MCGS.uct_value
    cases p with
    | none => rfl
    | some p =>
      dsimp only
      rw [if_pos h]
  · intro n p h
    unfold MCTS.uct_value
    rw [if_pos h]

/-- Counterexample for C6 as stated: the zero-visit node `g3n1` (resp.
`t3n1`) makes `uct_value` divide by zero in the graph (resp. tree) agent,
modelled as the undefined result `none`. -/
theorem C6_counterexample :
    g3n1.visits = 0 ∧ MCGS.uct_value g3n1 (some g3n2) = none ∧
    t3n1.visits = 0 ∧ MCTS.uct_value t3n1 (some t3n2) = none :=
  ⟨rfl, rfl, rfl, rfl⟩

/-- Witness for C6 (amended): the guarded value and the unguarded UCT
scores evaluated at concrete zero-visit nodes. -/
theorem C6_zero_visit_guard_witness :
    g4node.visits = 0 ∧ MCGS.Node.value g4node = 0 ∧
    MCGS.uct_value g4node (some g4node) = none ∧
    MCTS.uct_value t3lone_node (some t3lone_node) = none :=
  ⟨rfl, C6_zero_visit_guard.1 g4node rfl,
   C6_zero_visit_guard.2.2.1 g4node (some g4node) rfl,
   C6_zero_visit_guard.2.2.2 t3lone_node (some t3lone_node) rfl⟩

/-- C5 (amended): for a visited node with a live parent the graph agent's
`uct_value` equals exactly the spec's scoring rule
`value + (1/sqrt 2) * sqrt(ln(parent.visits + 1) / visits)`, while the tree
agent's `uct_value` computes
`value/visits + (1/sqrt 2) * sqrt(ln(parent.visits) / visits)` — the
`+ 1` of the spec formula is absent when a parent exists (by Python
operator precedence it lands in the parentless arm as `ln 2`). -/
theorem C5_uct_scoring_rule :
    (∀ (n p : MCGS.Node), n.visits ≠ 0 →
      MCGS.uct_value n (some p) =
        some (uct_spec_formula (n.value : ℝ) p.visits n.visits)) ∧
    (∀ (n p : MCTS.Node), n.visits ≠ 0 → p.visits ≠ 0 →
      MCTS.uct_value n (some p) =
        some ((n.value : ℝ) / n.visits +
          1 / Real.sqrt 2 * Real.sqrt (Real.log p.visits / n.visits))) := by
  constructor
  · intro n p h
    unfold MCGS.uct_value uct_spec_formula
    dsimp only
    rw [if_neg h]
  · intro n p h hp
    unfold MCTS.uct_value
    rw [if_neg h]
    dsimp only
    rw [if_neg hp]

/-- A once-visited tree-agent node with mean value `0`. -/
def nC5 : MCTS.Node :=
  { id := 1, observation := 0, parent := some 2, value := 0, visits := 1,
    is_leaf := true, redundant := false, chosen := false, unreachable := false }

/-- Its once-visited parent. -/
def pC5 : MCTS.Node :=
  { id := 2, observation := 1, parent := none, value := 0, visits := 1,
    is_leaf := false, redundant := false, chosen := true, unreachable := false }

/-- Counterexample for C5 as stated: at a node with one visit whose parent
has one visit, the tree agent's score is
`0 + (1/sqrt 2) * sqrt(ln 1) = 0`, while the spec formula demands
`0 + (1/sqrt 2) * sqrt(ln 2) > 0`; the tree variant does not compute the
claimed formula. -/
theorem C5_counterexample :
    MCTS.uct_value nC5 (some pC5) ≠
      some (uct_spec_formula ((nC5.value : ℝ) / nC5.visits) pC5.visits nC5.visits) := by
  have hL : MCTS.uct_value nC5 (some pC5) = some 0 := by
    unfold MCTS.uct_value
    norm_num [nC5, pC5]
  have hR : 0 < uct_spec_formula ((nC5.value : ℝ) / nC5.visits) pC5.visits nC5.visits := by
    unfold uct_spec_formula
    norm_num [nC5, pC5]
    have h2 : (0 : ℝ) < Real.log 2 := Real.log_pos one_lt_two
    positivity
  intro h
  rw [hL] at h
  have h0 := Option.some.inj h
  linarith [hR]

/-- A once-visited graph-agent node. -/
def n5g : MCGS.Node :=
  { id := 1, parent := some 2, action := none, total_value := 2, visits := 1,
    is_leaf := true, chosen := false, unreachable := false }

/-- A once-visited graph-agent parent node. -/
def p5g : MCGS.Node :=
  { id := 2, parent := none, action := none, total_value := 0, visits := 1,
    is_leaf := false, chosen := true, unreachable := false }

/-- Witness for C5 (amended): the two formula equalities evaluated at
concrete once-visited nodes. -/
theorem C5_uct_scoring_rule_witness :
    n5g.visits ≠ 0 ∧
    MCGS.uct_value n5g (some p5g) =
      some (uct_spec_formula (n5g.value : ℝ) p5g.visits n5g.visits) ∧
    MCTS.uct_value nC5 (some pC5) =
      some ((nC5.value : ℝ) / nC5.visits +
        1 / Real.sqrt 2 * Real.sqrt (Real.log pC5.visits / nC5.visits)) :=
  ⟨by decide, C5_uct_scoring_rule.1 n5g p5g (by decide),
   C5_uct_scoring_rule.2 nC5 pC5 (by decide) (by decide)⟩

namespace MCGS

/-- The trajectory one graph-agent rollout actually walks: each step
advances the cloned environment with the end action derived from the
pre-sampled action and records the heuristic reward of the state reached. -/
def rollout_trace {GS : Type} (env : Env GS) : GS → List Act → List TraceEntry
  | _, [] => []
  | e, a :: l =>
    let e' := env.advance_gamestate e (env.create_end_action env.player_id a)
    (env.get_observation e, env.get_observation e', a, env.evaluate_gamestate e') ::
      rollout_trace env e' l

lemma rollout_trace_length {GS : Type} (env : Env GS) :
    ∀ (l : List Act) (e : GS), (rollout_trace env e l).length = l.length := by
  intro l
  induction l with
  | nil => intro e; rfl
  | cons a l ih =>
    intro e
    unfold rollout_trace
    simp [ih]

lemma rollout_loop_cum {GS : Type} (env : Env GS) :
    ∀ (l : List Act) (e : GS) (cum : ℚ) (path : List TraceEntry) (st : AState),
      (rollout_loop env l (env.get_observation e) cum path e st).1 =
        cum + ((rollout_trace env e l).map fun x => x.2.2.2).sum := by
  intro l
  induction l with
  | nil => intro e cum path st; simp [rollout_loop, rollout_trace]
  | cons a l ih =>
    intro e cum path st
    conv_lhs => rw [rollout_loop]
    rw [ih]
    conv_rhs => rw [rollout_trace]
    simp only [List.map_cons, List.sum_cons]
    ring

lemma rollout_loop_path {GS : Type} (env : Env GS) :
    ∀ (l : List Act) (e : GS) (cum : ℚ) (path : List TraceEntry) (st : AState),
      (rollout_loop env l (env.get_observation e) cum path e st).2.1 =
        path ++ rollout_trace env e l := by
  intro l
  induction l with
  | nil => intro e cum path st; simp [rollout_loop, rollout_trace]
  | cons a l ih =>
    intro e cum path st
    conv_lhs => rw [rollout_loop]
    rw [ih]
    conv_rhs => rw [rollout_trace]
    simp

lemma rollout_loop_fm {GS : Type} (env : Env GS) :
    ∀ (l : List Act) (e : GS) (cum : ℚ) (path : List TraceEntry) (st : AState),
      (rollout_loop env l (env.get_observation e) cum path e st).2.2.forward_model_calls =
        st.forward_model_calls + l.length := by
  intro l
  induction l with
  | nil => intro e cum path st; rfl
  | cons a l ih =>
    intro e cum path st
    conv_lhs => rw [rollout_loop]
    rw [ih]
    show st.forward_model_calls + 1 + l.length = st.forward_model_calls + (l.length + 1)
    omega

lemma rollout_cum {GS : Type} (env : Env GS) (a? : Option Act) (e : GS) (l : List Act)
    (st : AState) :
    (rollout env a? e l st).1 =
      ((rollout_trace env (env.advance_opt e a?) l).map fun x => x.2.2.2).sum := by
  unfold rollout
  rw [rollout_loop_cum]
  ring

lemma rollout_path {GS : Type} (env : Env GS) (a? : Option Act) (e : GS) (l : List Act)
    (st : AState) :
    (rollout env a? e l st).2.1 = rollout_trace env (env.advance_opt e a?) l := by
  unfold rollout
  rw [rollout_loop_path]
  simp

lemma rollout_fm {GS : Type} (env : Env GS) (a? : Option Act) (e : GS) (l : List Act)
    (st : AState) :
    (rollout env a? e l st).2.2.forward_model_calls =
      st.forward_model_calls + 1 + l.length := by
  unfold rollout
  rw [rollout_loop_fm]
  rfl

lemma seq_sim_aux_length {GS : Type} (env : Env GS) (a? : Option Act) (e : GS) :
    ∀ (k : Nat) (st : AState), (seq_sim_aux env a? e k st).1.length = k := by
  intro k
  induction k with
  | zero => intro st; rfl
  | succ k ih =>
    intro st
    unfold seq_sim_aux
    simp [ih]

end MCGS

/-- C9 (amended): the graph agent's rollout never consults the budget —
its cumulative reward and trace are unchanged under any values of the
budget counters and it always performs exactly `1 + depth` forward-model
calls — while the tree agent's rollout loop checks the budget before every
step and an in-flight rollout returns as soon as the budget is exhausted. -/
theorem C9_budget_check_placement :
    (∀ {GS : Type} (env : Env GS) (a? : Option Act) (e : GS) (l : List Act)
      (st : MCGS.AState) (c m : Nat),
      (MCGS.rollout env a? e l
          { st with forward_model_calls := c, max_forward_model_calls := m }).1 =
        (MCGS.rollout env a? e l st).1 ∧
      (MCGS.rollout env a? e l
          { st with forward_model_calls := c, max_forward_model_calls := m }).2.1 =
        (MCGS.rollout env a? e l st).2.1 ∧
      (MCGS.rollout env a? e l st).2.2.forward_model_calls =
        st.forward_model_calls + 1 + l.length) ∧
    (∀ {GS : Type} (env : Env GS) (fuel : Nat) (e : GS) (cum : ℚ) (st : MCTS.MState),
      MCTS.is_budget_over st = true →
      MCTS.rollout_loop env (fuel + 1) e cum st = (cum, st)) := by
  constructor
  · intro GS env a? e l st c m
    refine ⟨?_, ?_, MCGS.rollout_fm env a? e l st⟩
    · rw [MCGS.rollout_cum, MCGS.rollout_cum]
    · rw [MCGS.rollout_path, MCGS.rollout_path]
  · intro GS env fuel e cum st h
    unfold MCTS.rollout_loop
    by_cases hA : (env.generate_actions e env.player_id).isEmpty
    · simp [hA]
    · simp [hA, h]

/-- The tree-agent root node as established by `MCTSAgent.init` (line 27):
counter identity `0`, no parent, a chosen leaf with zero statistics. -/
def mtroot : MCTS.Node :=
  { id := 0, observation := 0, parent := none, value := 0, visits := 0,
    is_leaf := true, redundant := false, chosen := true, unreachable := false }

/-- The tree-agent state established by `MCTSAgent.init` (lines 17-43). -/
def mstate0 : MCTS.MState :=
  { graph := { nodes := [mtroot], edges := [] }, root_id := 0, node_counter := 0,
    edge_counter := 0, num_rollouts := 8, use_opponent_model := true,
    num_simulations := 0, forward_model_calls := 0, max_forward_model_calls := 3000,
    num_iterations := 0, max_iterations := 100, elapsed_ms := 0, max_time_ms := 1000,
    budget_type := "MAX_FM_CALLS", rng := fun _ => 0, rng_idx := 0 }

/-- The tree-agent state with its forward-model budget already exhausted. -/
def mstateOver : MCTS.MState :=
  { mstate0 with forward_model_calls := 3000 }

/-- The environment of the C9 runs: one legal action everywhere, never
terminal, unit heuristic reward. -/
def envC9 : Env Nat :=
  { get_observation := fun s => s
    generate_actions := fun _ _ => [3]
    advance_gamestate := fun s a => s + a
    is_game_over := fun _ => false
    evaluate_gamestate := fun _ => 1
    create_end_action := fun _ a => a
    validate := fun _ _ => true
    set_current_tbs_player := fun s _ => s
    player_id := 0 }

/-- Counterexample for C9 as stated: with a legal action available and the
game not over, a tree-agent rollout that has started performs zero
forward-model calls when the budget is already exhausted but five when it
is not — the budget is consulted inside the rollout, and an in-flight
rollout does not run to its own termination condition. -/
theorem C9_counterexample :
    envC9.generate_actions 0 0 ≠ [] ∧
    envC9.is_game_over 0 = false ∧
    MCTS.is_budget_over mstateOver = true ∧
    (MCTS.rollout_loop envC9 5 0 0 mstateOver).2.forward_model_calls =
      mstateOver.forward_model_calls ∧
    (MCTS.rollout_loop envC9 5 0 0 mstate0).2.forward_model_calls =
      mstate0.forward_model_calls + 5 := by
  refine ⟨by decide, rfl, rfl, rfl, by decide⟩

/-- Witness for C9 (amended): budget-independence of a concrete graph-agent
rollout, its exact call count, and a concrete exhausted-budget tree-agent
rollout that returns immediately. -/
theorem C9_budget_check_placement_witness :
    (MCGS.rollout env2 (some 0) 0 [0, 1]
        { gstate0 with forward_model_calls := 5, max_forward_model_calls := 7 }).1 =
      (MCGS.rollout env2 (some 0) 0 [0, 1] gstate0).1 ∧
    (MCGS.rollout env2 (some 0) 0 [0, 1] gstate0).2.2.forward_model_calls =
      gstate0.forward_model_calls + 1 + ([0, 1] : List Act).length ∧
    MCTS.is_budget_over mstateOver = true ∧
    MCTS.rollout_loop envC9 3 0 0 mstateOver = (0, mstateOver) :=
  ⟨(C9_budget_check_placement.1 env2 (some 0) 0 [0, 1] gstate0 5 7).1,
   (C9_budget_check_placement.1 env2 (some 0) 0 [0, 1] gstate0 5 7).2.2,
   rfl,
   C9_budget_check_placement.2 envC9 2 0 0 mstateOver rfl⟩

/-- C7 (amended): a graph-agent rollout advances once with the action
leading to the child and then performs exactly one step per entry of the
pre-sampled action list — each step advancing with the end action derived
from the sampled action (`create_end_action`), accumulating the heuristic
reward with no terminal or legal-action check — and `sequential_simulation`
returns the mean over `num_rollouts` such rollouts; a tree-agent rollout
instead samples a fresh action each step and stops only on an empty action
set, an exhausted budget, or a terminal state (there is no depth limit). -/
theorem C7_rollout_procedure :
    (∀ {GS : Type} (env : Env GS) (a? : Option Act) (e : GS) (l : List Act)
      (st : MCGS.AState),
      (MCGS.rollout env a? e l st).2.1 =
        MCGS.rollout_trace env (env.advance_opt e a?) l ∧
      (MCGS.rollout env a? e l st).1 =
        (((MCGS.rollout env a? e l st).2.1).map fun x => x.2.2.2).sum ∧
      ((MCGS.rollout env a? e l st).2.1).length = l.length) ∧
    (∀ {GS : Type} (env : Env GS) (a? : Option Act) (e : GS) (k : Nat)
      (st : MCGS.AState),
      (MCGS.seq_sim_aux env a? e k st).1.length = k) ∧
    (∀ {GS : Type} (env : Env GS) (a? : Option Act) (e : GS) (st : MCGS.AState),
      (MCGS.sequential_simulation env a? e st).1 =
        rat_mean (MCGS.seq_sim_aux env a? e st.num_rollouts st).1) ∧
    (∀ {GS : Type} (env : Env GS) (fuel : Nat) (e : GS) (cum : ℚ) (st : MCTS.MState),
      env.generate_actions e env.player_id = [] →
      MCTS.rollout_loop env (fuel + 1) e cum st = (cum, st)) ∧
    (∀ {GS : Type} (env : Env GS) (fuel : Nat) (e : GS) (cum : ℚ) (st : MCTS.MState),
      env.is_game_over e = true →
      MCTS.rollout_loop env (fuel + 1) e cum st = (cum, st)) := by
  refine ⟨?_, ?_, ?_, ?_, ?_⟩
  · intro GS env a? e l st
    refine ⟨MCGS.rollout_path env a? e l st, ?_, ?_⟩
    · rw [MCGS.rollout_cum, MCGS.rollout_path]
    · rw [MCGS.rollout_path, MCGS.rollout_trace_length]
  · intro GS env a? e k st
    exact MCGS.seq_sim_aux_length env a? e k st
  · intro GS env a? e st
    rfl
  · intro GS env fuel e cum st h
    unfold MCTS.rollout_loop
    simp [h]
  · intro GS env fuel e cum st h
    unfold MCTS.rollout_loop
    by_cases hA : (env.generate_actions e env.player_id).isEmpty
    · simp [hA]
    · by_cases hB : MCTS.is_budget_over st
      · simp [hA, hB]
      · simp [hA, hB, h]

/-- The environment of the C7 run: one legal action `5` everywhere, every
state terminal, unit heuristic reward, and an end action distinguishable
from the sampled action (`create_end_action a = 100 + a`). -/
def env7 : Env Nat :=
  { get_observation := fun s => s
    generate_actions := fun _ _ => [5]
    advance_gamestate := fun s a => s + a
    is_game_over := fun _ => true
    evaluate_gamestate := fun _ => 1
    create_end_action := fun _ a => 100 + a
    validate := fun _ _ => true
    set_current_tbs_player := fun s _ => s
    player_id := 0 }

/-- Counterexample for C7 as stated: in an everywhere-terminal environment
a graph-agent rollout of the pre-sampled list `[5, 5]` still performs both
reward steps (cumulative reward `2`), and its recorded transitions run
`5 → 110 → 215` — each step advanced with the end action `105`, not with
the sampled legal action `5` (which would have given `5 → 10 → 15`); and a
tree-agent rollout with actions available and the game not over performs
no step at all once the budget is exhausted, a stop condition the claim
does not list. -/
theorem C7_counterexample :
    env7.is_game_over 0 = true ∧
    (MCGS.rollout env7 (some 5) 0 [5, 5] gstate0).2.1 =
      [(5, 110, 5, 1), (110, 215, 5, 1)] ∧
    (MCGS.rollout env7 (some 5) 0 [5, 5] gstate0).1 = 2 ∧
    env7.advance_gamestate 5 5 = 10 ∧
    env7.create_end_action 0 5 = 105 ∧
    envC9.generate_actions 0 0 ≠ [] ∧
    envC9.is_game_over 0 = false ∧
    (MCTS.rollout_loop envC9 3 0 0
        { mstate0 with forward_model_calls := 7, max_forward_model_calls := 7 }
      ).2.forward_model_calls = 7 := by
  refine ⟨rfl, rfl, ?_, rfl, rfl, by decide, rfl, rfl⟩
  rw [MCGS.rollout_cum]
  norm_num [MCGS.rollout_trace, env7, Env.advance_opt]

/-- An environment with no legal action anywhere. -/
def envEmpty : Env Nat :=
  { get_observation := fun s => s
    generate_actions := fun _ _ => []
    advance_gamestate := fun s a => s + a
    is_game_over := fun _ => false
    evaluate_gamestate := fun _ => 0
    create_end_action := fun _ a => a
    validate := fun _ _ => true
    set_current_tbs_player := fun s _ => s
    player_id := 0 }

/-- Witness for C7 (amended): the trace equality and rollout count of a
concrete graph-agent rollout, and concrete tree-agent rollouts stopped by
an empty action set and by a terminal state. -/
theorem C7_rollout_procedure_witness :
    (MCGS.rollout env2 (some 0) 0 [0, 1] gstate0).2.1 =
      MCGS.rollout_trace env2 (env2.advance_opt 0 (some 0)) [0, 1] ∧
    (MCGS.seq_sim_aux env2 (some 0) 0 8 gstate0).1.length = 8 ∧
    MCTS.rollout_loop envEmpty 4 0 0 mstate0 = (0, mstate0) ∧
    MCTS.rollout_loop env7 4 0 0 mstate0 = (0, mstate0) :=
  ⟨(C7_rollout_procedure.1 env2 (some 0) 0 [0, 1] gstate0).1,
   C7_rollout_procedure.2.1 env2 (some 0) 0 8 gstate0,
   C7_rollout_procedure.2.2.2.1 envEmpty 3 0 0 mstate0 rfl,
   C7_rollout_procedure.2.2.2.2 env7 3 0 0 mstate0 rfl⟩

/-- C8: when the best-node search over reachable nodes finds nothing (the
closest-terminal probe of the store finds no node by construction, since
the `Node` record carries no terminal flag), `select_best_step` returns the
root with action `None`; and a `plan()` that returns no action makes
`compute_action` return the explicit end-turn assignment instead of
raising. -/
theorem C8_no_reachable_fallback :
    (∀ (st : MCGS.AState) (node_id : Obs) (closest : Bool),
      st.graph.get_best_node true = none →
      MCGS.select_best_step st node_id closest = some (st.root_id, none)) ∧
    (∀ {GS : Type} (env : Env GS) (fuel : Nat) (gs : GS) (st : MCGS.AState),
      (MCGS.plan env fuel gs (MCGS.reset_budget st)).map Prod.fst = some none →
      (MCGS.compute_action env fuel gs st).map Prod.fst =
        some (ActionAssignment.end_turn env.player_id)) := by
  constructor
  · intro st node_id closest h
    unfold MCGS.select_best_step MCGS.Graph.get_closest_done_node
    cases closest <;> simp [h]
  · intro GS env fuel gs st h
    unfold MCGS.compute_action
    dsimp only
    rcases ho : MCGS.plan env fuel gs (MCGS.reset_budget st) with _ | ⟨a?, st'⟩
    · rw [ho] at h
      simp at h
    · rw [ho] at h
      simp only [Option.map_some'] at h
      have ha := Option.some.inj h
      subst ha
      rfl

/-- The agent state whose only stored node (the root) is flagged
unreachable and whose forward-model budget is zero, so that the budgeted
loop exits at once and the reachable best-node search is empty. -/
def gstateUnreach : MCGS.AState :=
  { gstate0 with
    graph := { nodes := [{ root0 with unreachable := true }], edges := [],
               frontier := [], root := none },
    max_forward_model_calls := 0 }

/-- Witness for C8: the fallbacks evaluated on the concrete state with no
reachable node. -/
theorem C8_no_reachable_fallback_witness :
    gstateUnreach.graph.get_best_node true = none ∧
    MCGS.select_best_step gstateUnreach 0 true = some (0, none) ∧
    (MCGS.compute_action env2 1 0 gstateUnreach).map Prod.fst =
      some (ActionAssignment.end_turn 0) :=
  ⟨rfl,
   C8_no_reachable_fallback.1 gstateUnreach 0 true rfl,
   C8_no_reachable_fallback.2 env2 1 0 gstateUnreach rfl⟩

/-- C10: whenever `generate_actions` returns exactly one legal action,
the tree agent's `compute_action` returns that action immediately — for
every possible planning function — leaving the state exactly as
`reset_budget` produced it: the graph is untouched and no forward-model
call has been made. -/
theorem C10_single_action_shortcut {GS : Type} (env : Env GS)
    (plan_fn : GS → MCTS.MState → Option (Act × MCTS.MState)) (gs : GS)
    (st : MCTS.MState) (a : Act)
    (h : env.generate_actions gs env.player_id = [a]) :
    MCTS.compute_action env plan_fn gs st =
      some (ActionAssignment.single a, MCTS.reset_budget st) ∧
    (MCTS.reset_budget st).graph = st.graph ∧
    (MCTS.reset_budget st).forward_model_calls = 0 := by
  refine ⟨?_, rfl, rfl⟩
  unfold MCTS.compute_action
  rw [h]
  simp

/-- An environment whose only legal action is `42`. -/
def envSingle : Env Nat :=
  { get_observation := fun s => s
    generate_actions := fun _ _ => [42]
    advance_gamestate := fun s a => s + a
    is_game_over := fun _ => false
    evaluate_gamestate := fun _ => 0
    create_end_action := fun _ a => a
    validate := fun _ _ => true
    set_current_tbs_player := fun s _ => s
    player_id := 0 }

/-- Witness for C10: the shortcut evaluated against a planning function
that would return action `0`; the single legal action `42` is returned
instead and the state is exactly the budget-reset one. -/
theorem C10_single_action_shortcut_witness :
    envSingle.generate_actions 0 0 = [42] ∧
    MCTS.compute_action envSingle (fun _ st => some (0, st)) 0 mstate0 =
      some (ActionAssignment.single 42, MCTS.reset_budget mstate0) :=
  ⟨rfl, (C10_single_action_shortcut envSingle (fun _ st => some (0, st)) 0 mstate0 42
    rfl).1⟩
